import Mathlib

/- Shallow embedding of the repository
   "Fragilizacion-de-Aceros-de-Vasijas-Nucleares-Usando-PINNs-Informadas-por-la-Fisica".

   Embedded code:
   * `src/src/astm/formula.py`: the vectorized evaluator `astm_e900_15`
     (the Arrhenius / hyperbolic-tangent variant that is the one present in
     the source tree), together with its named intermediate quantities
     `A_coeff`, `term_A`, `G`, `F`, `B_coeff`, `term_B`.
   * `src/main.py`: the baseline driver `main` (existence check of the input
     file, `dropna` row filter over a fixed column subset, try/except around
     formula evaluation and RMSE computation, threshold verdict), and the
     RMSE computation `np.sqrt(mean_squared_error(...))`.

   numpy double-precision scalars are modelled by `NpF`: finite values are
   idealized as exact real numbers (rounding is not modelled) and the IEEE
   special values +inf, -inf and nan are explicit constructors.  Signed
   zeros are not modelled: where IEEE produces a zero or an infinity whose
   sign depends on the sign of a zero operand, the unsigned (positive-zero)
   representative is used.  None of the claims below depends on a signed
   zero or on rounding. -/

/-- Model of a numpy double-precision scalar (see header comment). -/
inductive NpF where
  | fin : ℝ → NpF
  | pinf : NpF
  | ninf : NpF
  | nan : NpF

/-- IEEE negation. -/
def NpF.neg : NpF → NpF
  | .fin x => .fin (-x)
  | .pinf => .ninf
  | .ninf => .pinf
  | .nan => .nan

/-- IEEE addition: nan propagates, opposite infinities give nan. -/
def NpF.add : NpF → NpF → NpF
  | .nan, _ => .nan
  | _, .nan => .nan
  | .fin x, .fin y => .fin (x + y)
  | .fin _, .pinf => .pinf
  | .fin _, .ninf => .ninf
  | .pinf, .fin _ => .pinf
  | .pinf, .pinf => .pinf
  | .pinf, .ninf => .nan
  | .ninf, .fin _ => .ninf
  | .ninf, .pinf => .nan
  | .ninf, .ninf => .ninf

/-- IEEE subtraction, `x - y = x + (-y)` (exact in IEEE). -/
def NpF.sub (a b : NpF) : NpF := a.add b.neg

/-- IEEE multiplication: nan propagates, `0 * inf = nan`, signs of
infinities follow the sign of the finite factor. -/
noncomputable def NpF.mul : NpF → NpF → NpF
  | .nan, _ => .nan
  | _, .nan => .nan
  | .fin x, .fin y => .fin (x * y)
  | .fin x, .pinf => if x = 0 then .nan else if 0 < x then .pinf else .ninf
  | .fin x, .ninf => if x = 0 then .nan else if 0 < x then .ninf else .pinf
  | .pinf, .fin y => if y = 0 then .nan else if 0 < y then .pinf else .ninf
  | .ninf, .fin y => if y = 0 then .nan else if 0 < y then .ninf else .pinf
  | .pinf, .pinf => .pinf
  | .pinf, .ninf => .ninf
  | .ninf, .pinf => .ninf
  | .ninf, .ninf => .pinf

/-- IEEE division (unsigned-zero idealization: `x / 0` for `x > 0` is
`+inf`, for `x < 0` is `-inf`, `0 / 0 = nan`; `fin / inf = 0`,
`inf / inf = nan`). -/
noncomputable def NpF.div : NpF → NpF → NpF
  | .nan, _ => .nan
  | _, .nan => .nan
  | .fin x, .fin y =>
      if y = 0 then (if x = 0 then .nan else if 0 < x then .pinf else .ninf)
      else .fin (x / y)
  | .fin _, .pinf => .fin 0
  | .fin _, .ninf => .fin 0
  | .pinf, .fin y => if 0 ≤ y then .pinf else .ninf
  | .ninf, .fin y => if 0 ≤ y then .ninf else .pinf
  | .pinf, .pinf => .nan
  | .pinf, .ninf => .nan
  | .ninf, .pinf => .nan
  | .ninf, .ninf => .nan

/-- `np.exp` on doubles: `exp(-inf) = 0`, `exp(+inf) = +inf`. -/
noncomputable def NpF.exp : NpF → NpF
  | .fin x => .fin (Real.exp x)
  | .pinf => .pinf
  | .ninf => .fin 0
  | .nan => .nan

/-- `np.tanh` on doubles: `tanh(-inf) = -1`, `tanh(+inf) = 1`. -/
noncomputable def NpF.tanh : NpF → NpF
  | .fin x => .fin (Real.tanh x)
  | .pinf => .fin 1
  | .ninf => .fin (-1)
  | .nan => .nan

/-- `np.log10` on doubles: `log10(0) = -inf` (with a runtime warning, not
an exception), `log10(x) = nan` for `x < 0`, `log10(+inf) = +inf`. -/
noncomputable def NpF.log10 : NpF → NpF
  | .fin x => if 0 < x then .fin (Real.logb 10 x) else if x = 0 then .ninf else .nan
  | .pinf => .pinf
  | .ninf => .nan
  | .nan => .nan

section

open Classical

/-- numpy `**` with a finite (Python float) exponent `p`, following IEEE
`pow`: `x ** 0 = 1` for every `x`; a positive base uses the real power; a
zero base gives `0` for `p > 0` and `+inf` for `p < 0`; a negative base
gives nan unless `p` is an integer (sign by parity); `(-inf) ** p` and
`(+inf) ** p` follow the usual IEEE rules (unsigned-zero idealization). -/
noncomputable def NpF.pow : NpF → ℝ → NpF
  | .nan, q => if q = 0 then .fin 1 else .nan
  | .fin x, q =>
      if q = 0 then .fin 1
      else if 0 < x then .fin (x ^ q)
      else if x = 0 then (if 0 < q then .fin 0 else .pinf)
      else if ∃ n : ℤ, (n : ℝ) = q ∧ Odd n then .fin (-(|x| ^ q))
      else if ∃ n : ℤ, (n : ℝ) = q then .fin (|x| ^ q)
      else .nan
  | .pinf, q => if q = 0 then .fin 1 else if 0 < q then .pinf else .fin 0
  | .ninf, q =>
      if q = 0 then .fin 1
      else if 0 < q then (if ∃ n : ℤ, (n : ℝ) = q ∧ Odd n then .ninf else .pinf)
      else .fin 0

end

/-- `np.maximum` on doubles: propagates nan, otherwise the larger value. -/
noncomputable def NpF.max : NpF → NpF → NpF
  | .nan, _ => .nan
  | _, .nan => .nan
  | .fin x, .fin y => .fin (Max.max x y)
  | .pinf, _ => .pinf
  | _, .pinf => .pinf
  | .ninf, b => b
  | a, .ninf => a

noncomputable instance : Neg NpF := ⟨NpF.neg⟩

noncomputable instance : Add NpF := ⟨NpF.add⟩

noncomputable instance : Sub NpF := ⟨NpF.sub⟩

noncomputable instance : Mul NpF := ⟨NpF.mul⟩

noncomputable instance : Div NpF := ⟨NpF.div⟩

/- ----------------------------------------------------------------------
   `src/src/astm/formula.py`, function `astm_e900_15`, per-sample form.
   Each named definition mirrors the local variable of the same name in
   the source.  The Python `np.where(product_form == 'W', a, b)` scalar
   selections become `if product_form = "W" then a else b`.
   ---------------------------------------------------------------------- -/

/-- Source: `A_coeff = np.where(product_form == 'W', 6.7e-18, 6.7e-18)`
(both branches carry the same constant). -/
def A_coeff (product_form : String) : NpF :=
  if product_form = "W" then .fin 6.7e-18 else .fin 6.7e-18

/-- Source: `B_coeff = np.where(product_form == 'W', 234, 128)`. -/
def B_coeff (product_form : String) : NpF :=
  if product_form = "W" then .fin 234 else .fin 128

/-- Source: `T_f = temp_c * 1.8 + 32.0` then `T_R = T_f + 460.67`. -/
noncomputable def T_R (temp_c : NpF) : NpF :=
  temp_c * .fin 1.8 + .fin 32.0 + .fin 460.67

/-- Source: `term_A = A_coeff * np.exp(20730 / T_R) * fluence ** 0.5076`. -/
noncomputable def term_A (product_form : String) (temp_c fluence : NpF) : NpF :=
  A_coeff product_form * NpF.exp (.fin 20730 / T_R temp_c) * fluence.pow 0.5076

/-- Source: `G = 1/2+1/2*np.tanh((np.log10(fluence)-18.24)/1.052)`
(Python `1/2` is the exact float 0.5). -/
noncomputable def G (fluence : NpF) : NpF :=
  .fin (1/2) + .fin (1/2) * NpF.tanh ((fluence.log10 - .fin 18.24) / .fin 1.052)

/-- Source: `F = np.maximum(cu - 0.072, 0) ** 0.577`. -/
noncomputable def F (cu : NpF) : NpF :=
  (NpF.max (cu - .fin 0.072) (.fin 0)).pow 0.577

/-- Source: `term_B = B_coeff * (1.0 + 2.106 * ni **1.173) * F * G`
(Python `*` is left-associative). -/
noncomputable def term_B (product_form : String) (cu ni fluence : NpF) : NpF :=
  B_coeff product_form * (.fin 1.0 + .fin 2.106 * ni.pow 1.173) * F cu * G fluence

/-- One sample of `astm_e900_15`: `tts_fahrenheit = term_A + term_B`,
`tts_celsius = tts_fahrenheit / 1.8`.  The arguments `p` (phosphorus) and
`mn` (manganese) are accepted, as in the source signature, but do not
occur in any computed expression of the source body. -/
noncomputable def astm_sample (cu ni p mn temp_c fluence : NpF)
    (product_form : String) : NpF :=
  (term_A product_form temp_c fluence + term_B product_form cu ni fluence) / .fin 1.8

/-- The vectorized evaluator `astm_e900_15` of `src/src/astm/formula.py`:
numpy element-wise evaluation of aligned input sequences (on equal-length
inputs it maps `astm_sample` over the rows). -/
noncomputable def astm_e900_15 :
    List NpF → List NpF → List NpF → List NpF → List NpF → List NpF →
    List String → List NpF
  | c :: cu, n :: ni, q :: ph, m :: mn, t :: temp, f :: fl, s :: pf =>
      astm_sample c n q m t f s :: astm_e900_15 cu ni ph mn temp fl pf
  | _, _, _, _, _, _, _ => []

/- ----------------------------------------------------------------------
   `src/main.py`, function `main`.
   ---------------------------------------------------------------------- -/

/-- One row of the loaded dataframe; a `none` field is a missing (NaN)
cell in the corresponding CSV column. -/
structure Row where
  dt41j : Option ℝ
  fluence_n_cm2 : Option ℝ
  cu : Option ℝ
  ni : Option ℝ
  p : Option ℝ
  temperature_celsius : Option ℝ
  product_form : Option String
  mn : Option ℝ

/-- Source: `df = df.dropna(subset=['DT41J_Celsius', 'Fluence_n_cm2',
'Cu', 'Ni', 'Temperature_Celsius'])` — only those five columns are in the
subset. -/
def dropnaMain (df : List Row) : List Row :=
  df.filter fun r =>
    r.dt41j.isSome && r.fluence_n_cm2.isSome && r.cu.isSome &&
    r.ni.isSome && r.temperature_celsius.isSome

/-- A concrete row whose five `dropna`-subset cells are present but whose
phosphorus and product-form cells are missing. -/
def rowMissingP : Row :=
  { dt41j := some 1, fluence_n_cm2 := some 1, cu := some 1, ni := some 1,
    p := none, temperature_celsius := some 1, product_form := none,
    mn := none }

/-- The ways `main` can finish normally (mirroring its printed verdicts):
early return on a missing input file, the `rmse < 15.0` success branch,
the high-error branch, or the `except Exception` handler reporting the
exception message. -/
inductive MainOutcome where
  | missingFile
  | success (rmse : ℝ)
  | highError (rmse : ℝ)
  | caughtError (msg : String)

/-- The `try:` block of `main`: the formula evaluation and the RMSE
computation are abstracted as one fallible computation producing the RMSE;
`except Exception as e` turns any error into `caughtError` with the
message, and otherwise the `rmse < 15.0` verdict is taken. -/
noncomputable def tryBlock (body : Except String ℝ) : MainOutcome :=
  match body with
  | .ok r => if r < 15.0 then .success r else .highError r
  | .error e => .caughtError e

/-- The driver `main` of `src/main.py`.  `fileExists` models
`os.path.exists(ruta_csv)`; `load` models `pd.read_csv` (which runs
outside the `try`, so a load error propagates out of `main` as `.error`);
the loaded frame is filtered by `dropnaMain` and handed to the `try`
block, whose formula/RMSE computation is `body`. -/
noncomputable def main (fileExists : Bool) (load : Except String (List Row))
    (body : List Row → Except String ℝ) : Except String MainOutcome :=
  if fileExists = false then .ok .missingFile
  else
    match load with
    | .error e => .error e
    | .ok df => .ok (tryBlock (body (dropnaMain df)))

/-- `sklearn.metrics.mean_squared_error` with uniform weights: the mean of
the squared differences of the two aligned sequences. -/
noncomputable def mean_squared_error (y_true y_pred : List ℝ) : ℝ :=
  (List.zipWith (fun a b => (a - b) ^ 2) y_true y_pred).sum / y_true.length

/-- Source (`src/main.py` line 64):
`rmse = np.sqrt(mean_squared_error(df['DT41J_Celsius'], df['Pred_ASTM']))`. -/
noncomputable def rmse (y_true y_pred : List ℝ) : ℝ :=
  Real.sqrt (mean_squared_error y_true y_pred)

/- ----------------------------------------------------------------------
   Evaluation lemmas for the `NpF` operations.
   ---------------------------------------------------------------------- -/

theorem npf_fin_add (x y : ℝ) : NpF.fin x + NpF.fin y = NpF.fin (x + y) := rfl

theorem npf_fin_mul (x y : ℝ) : NpF.fin x * NpF.fin y = NpF.fin (x * y) := rfl

theorem npf_fin_sub (x y : ℝ) : NpF.fin x - NpF.fin y = NpF.fin (x - y) := by
  show NpF.fin (x + -y) = NpF.fin (x - y)
  rw [← sub_eq_add_neg]

theorem npf_fin_div (x y : ℝ) (h : y ≠ 0) :
    NpF.fin x / NpF.fin y = NpF.fin (x / y) := by
  show NpF.div (NpF.fin x) (NpF.fin y) = NpF.fin (x / y)
  simp only [NpF.div]
  rw [if_neg h]

theorem npf_exp_fin (x : ℝ) : NpF.exp (NpF.fin x) = NpF.fin (Real.exp x) := rfl

theorem npf_tanh_fin (x : ℝ) : NpF.tanh (NpF.fin x) = NpF.fin (Real.tanh x) := rfl

theorem npf_tanh_ninf : NpF.tanh NpF.ninf = NpF.fin (-1) := rfl

theorem npf_log10_pos (x : ℝ) (h : 0 < x) :
    NpF.log10 (NpF.fin x) = NpF.fin (Real.logb 10 x) := by
  simp only [NpF.log10]
  rw [if_pos h]

theorem npf_log10_zero : NpF.log10 (NpF.fin 0) = NpF.ninf := by
  simp [NpF.log10]

theorem npf_max_fin (x y : ℝ) :
    NpF.max (NpF.fin x) (NpF.fin y) = NpF.fin (Max.max x y) := rfl

theorem npf_pow_pos (x q : ℝ) (hx : 0 < x) (hq : q ≠ 0) :
    (NpF.fin x).pow q = NpF.fin (x ^ q) := by
  simp only [NpF.pow]
  rw [if_neg hq, if_pos hx]

theorem npf_pow_zero_base (q : ℝ) (hq : 0 < q) : (NpF.fin 0).pow q = NpF.fin 0 := by
  simp [NpF.pow, hq, hq.ne']

theorem npf_pow_nonneg (x q : ℝ) (hx : 0 ≤ x) (hq : 0 < q) :
    (NpF.fin x).pow q = NpF.fin (x ^ q) := by
  rcases eq_or_lt_of_le hx with h | h
  · rw [← h, npf_pow_zero_base q hq, Real.zero_rpow (ne_of_gt hq)]
  · exact npf_pow_pos x q h (ne_of_gt hq)

theorem npf_ninf_sub_fin (y : ℝ) : NpF.ninf - NpF.fin y = NpF.ninf := rfl

theorem npf_ninf_div_fin (y : ℝ) (h : 0 ≤ y) : NpF.ninf / NpF.fin y = NpF.ninf := by
  show NpF.div NpF.ninf (NpF.fin y) = NpF.ninf
  simp only [NpF.div]
  rw [if_pos h]

theorem npf_add_fin_zero (a : NpF) : a + NpF.fin 0 = a := by
  cases a with
  | fin x => show NpF.fin (x + 0) = NpF.fin x; rw [add_zero]
  | pinf => rfl
  | ninf => rfl
  | nan => rfl

theorem npf_fin_mul_pinf (x : ℝ) (h : 0 < x) : NpF.fin x * NpF.pinf = NpF.pinf := by
  show NpF.mul (NpF.fin x) NpF.pinf = NpF.pinf
  simp only [NpF.mul]
  rw [if_neg (ne_of_gt h), if_pos h]

theorem npf_fin_mul_ninf (x : ℝ) (h : 0 < x) : NpF.fin x * NpF.ninf = NpF.ninf := by
  show NpF.mul (NpF.fin x) NpF.ninf = NpF.ninf
  simp only [NpF.mul]
  rw [if_neg (ne_of_gt h), if_pos h]

/- ----------------------------------------------------------------------
   Evaluation lemmas for the formula's named subexpressions.
   ---------------------------------------------------------------------- -/

theorem A_coeff_eq (s : String) : A_coeff s = NpF.fin 6.7e-18 := by
  unfold A_coeff
  exact ite_self _

theorem B_coeff_W : B_coeff "W" = NpF.fin 234 := by
  unfold B_coeff
  rw [if_pos rfl]

theorem B_coeff_ne (s : String) (h : s ≠ "W") : B_coeff s = NpF.fin 128 := by
  unfold B_coeff
  rw [if_neg h]

theorem B_coeff_pos (s : String) : ∃ b : ℝ, 0 < b ∧ B_coeff s = NpF.fin b := by
  unfold B_coeff
  by_cases h : s = "W"
  · exact ⟨234, by norm_num, by rw [if_pos h]⟩
  · exact ⟨128, by norm_num, by rw [if_neg h]⟩

theorem T_R_fin (t : ℝ) : T_R (NpF.fin t) = NpF.fin (t * 1.8 + 32.0 + 460.67) := by
  unfold T_R
  rw [npf_fin_mul, npf_fin_add, npf_fin_add]

theorem G_fin_zero : G (NpF.fin 0) = NpF.fin 0 := by
  unfold G
  rw [npf_log10_zero, npf_ninf_sub_fin, npf_ninf_div_fin _ (by norm_num), npf_tanh_ninf,
    npf_fin_mul, npf_fin_add]
  norm_num

theorem G_fin_pos (f : ℝ) (hf : 0 < f) : ∃ g : ℝ, G (NpF.fin f) = NpF.fin g := by
  unfold G
  rw [npf_log10_pos f hf, npf_fin_sub, npf_fin_div _ _ (by norm_num), npf_tanh_fin,
    npf_fin_mul, npf_fin_add]
  exact ⟨_, rfl⟩

theorem F_fin (c : ℝ) :
    F (NpF.fin c) = NpF.fin (Max.max (c - 0.072) 0 ^ (0.577 : ℝ)) := by
  unfold F
  rw [npf_fin_sub, npf_max_fin, npf_pow_nonneg _ _ (le_max_right _ _) (by norm_num)]

theorem F_fin_small (c : ℝ) (h : c ≤ 0.072) : F (NpF.fin c) = NpF.fin 0 := by
  rw [F_fin, max_eq_right (by linarith : c - 0.072 ≤ (0 : ℝ)),
    Real.zero_rpow (by norm_num : (0.577 : ℝ) ≠ 0)]

theorem term_A_fluence_zero (s : String) (t : ℝ)
    (hT : t * 1.8 + 32.0 + 460.67 ≠ 0) :
    term_A s (NpF.fin t) (NpF.fin 0) = NpF.fin 0 := by
  unfold term_A
  rw [A_coeff_eq, T_R_fin, npf_fin_div _ _ hT, npf_exp_fin, npf_fin_mul,
    npf_pow_zero_base _ (by norm_num), npf_fin_mul, mul_zero]

theorem term_B_fluence_zero (s : String) (c n : ℝ) (hn : 0 ≤ n) :
    term_B s (NpF.fin c) (NpF.fin n) (NpF.fin 0) = NpF.fin 0 := by
  obtain ⟨b, hb, hB⟩ := B_coeff_pos s
  unfold term_B
  rw [hB, G_fin_zero, npf_pow_nonneg _ _ hn (by norm_num), npf_fin_mul, npf_fin_add,
    npf_fin_mul, F_fin, npf_fin_mul, npf_fin_mul, mul_zero]

theorem term_B_cu_zero (s : String) (n fl : ℝ) (hn : 0 ≤ n) (hf : 0 < fl) :
    term_B s (NpF.fin 0) (NpF.fin n) (NpF.fin fl) = NpF.fin 0 := by
  obtain ⟨b, hb, hB⟩ := B_coeff_pos s
  obtain ⟨g, hG⟩ := G_fin_pos fl hf
  unfold term_B
  rw [hB, hG, npf_pow_nonneg _ _ hn (by norm_num), npf_fin_mul, npf_fin_add, npf_fin_mul,
    F_fin_small 0 (by norm_num), npf_fin_mul, npf_fin_mul, mul_zero, zero_mul]

theorem astm_sample_fluence_zero (c n q m t : ℝ) (s : String) (hn : 0 ≤ n)
    (hT : t * 1.8 + 32.0 + 460.67 ≠ 0) :
    astm_sample (NpF.fin c) (NpF.fin n) (NpF.fin q) (NpF.fin m) (NpF.fin t)
      (NpF.fin 0) s = NpF.fin 0 := by
  unfold astm_sample
  rw [term_A_fluence_zero s t hT, term_B_fluence_zero s c n hn, npf_fin_add,
    npf_fin_div _ _ (by norm_num)]
  norm_num

theorem npf_bpos_mul_zero (b₁ b₂ : ℝ) (hb₁ : 0 < b₁) (hb₂ : 0 < b₂) (X : NpF) :
    NpF.fin b₁ * X * NpF.fin 0 = NpF.fin b₂ * X * NpF.fin 0 := by
  cases X with
  | fin x => rw [npf_fin_mul, npf_fin_mul, npf_fin_mul, npf_fin_mul, mul_zero, mul_zero]
  | pinf => rw [npf_fin_mul_pinf _ hb₁, npf_fin_mul_pinf _ hb₂]
  | ninf => rw [npf_fin_mul_ninf _ hb₁, npf_fin_mul_ninf _ hb₂]
  | nan => rfl

theorem term_A_indep (s₁ s₂ : String) (t fl : NpF) :
    term_A s₁ t fl = term_A s₂ t fl := by
  unfold term_A
  rw [A_coeff_eq, A_coeff_eq]

theorem term_B_indep (s₁ s₂ : String) (c : ℝ) (hc : c ≤ 0.072) (ni fl : NpF) :
    term_B s₁ (NpF.fin c) ni fl = term_B s₂ (NpF.fin c) ni fl := by
  obtain ⟨b₁, hb₁, hB₁⟩ := B_coeff_pos s₁
  obtain ⟨b₂, hb₂, hB₂⟩ := B_coeff_pos s₂
  unfold term_B
  rw [hB₁, hB₂, F_fin_small c hc, npf_bpos_mul_zero b₁ b₂ hb₁ hb₂]

/- ----------------------------------------------------------------------
   Claim theorems.
   ---------------------------------------------------------------------- -/

/-- Claim C1 (counterexample): the code does not give product form `'W'`
the coefficient pair (0.919, 0.968) claimed by the spec: `A_coeff` for
`'W'` is 6.7e-18 and `B_coeff` for `'W'` is 234. -/
theorem c1_counterexample :
    ¬ (A_coeff "W" = NpF.fin 0.919 ∧ B_coeff "W" = NpF.fin 0.968) := by
  rintro ⟨h, -⟩
  rw [A_coeff_eq] at h
  simp only [NpF.fin.injEq] at h
  norm_num at h

/-- Claim C1 (amended): the per-sample coefficient selection of
`astm_e900_15` is: `A_coeff` equals 6.7e-18 for every product-form label
(both branches of its `np.where` carry the same constant), and `B_coeff`
is 234 for `'W'` and 128 for every other label — there is no separate
forging case. -/
theorem c1_coefficients :
    (∀ s : String, A_coeff s = NpF.fin 6.7e-18) ∧
      B_coeff "W" = NpF.fin 234 ∧
      ∀ s : String, s ≠ "W" → B_coeff s = NpF.fin 128 :=
  ⟨A_coeff_eq, B_coeff_W, B_coeff_ne⟩

/-- Claim C1 (witness): the amended mapping evaluated at the forging
label `'F'`. -/
theorem c1_witness : B_coeff "F" = NpF.fin 128 :=
  c1_coefficients.2.2 "F" (by decide)

/-- Claim C2 (counterexample): at a concrete input vector whose single
sample has fluence 0, the evaluator returns the value `[0]` instead of
failing: `np.log10(0)` is `-inf` (a warning, not a raised error), the
saturation factor `G` becomes exactly 0 and `0 ** 0.5076` is 0, so the
sample's prediction is exactly 0. -/
theorem c2_counterexample :
    astm_e900_15 [NpF.fin 0.1] [NpF.fin 0.5] [NpF.fin 0.01] [NpF.fin 1.4]
      [NpF.fin 290] [NpF.fin 0] ["P"] = [NpF.fin 0] := by
  have h := astm_sample_fluence_zero 0.1 0.5 0.01 1.4 290 "P" (by norm_num) (by norm_num)
  simp only [astm_e900_15, h]

/-- Claim C2 (amended): for a sample with fluence exactly zero (finite
inputs, nonnegative nickel, and a temperature whose Rankine conversion is
nonzero) the evaluator does not signal an error: it returns exactly 0 for
that sample, because `np.log10(0) = -inf` drives the tanh saturation to
`G = 0` and `0 ** 0.5076 = 0` kills the matrix term. -/
theorem c2_returns_zero (c n q m t : ℝ) (s : String) (hn : 0 ≤ n)
    (hT : t * 1.8 + 32.0 + 460.67 ≠ 0) :
    astm_sample (NpF.fin c) (NpF.fin n) (NpF.fin q) (NpF.fin m) (NpF.fin t)
      (NpF.fin 0) s = NpF.fin 0 :=
  astm_sample_fluence_zero c n q m t s hn hT

/-- Claim C2 (witness): the amended statement at a concrete weld sample. -/
theorem c2_witness :
    astm_sample (NpF.fin 0.2) (NpF.fin 0.6) (NpF.fin 0.01) (NpF.fin 1.4)
      (NpF.fin 300) (NpF.fin 0) "W" = NpF.fin 0 :=
  c2_returns_zero 0.2 0.6 0.01 1.4 300 "W" (by norm_num) (by norm_num)

/-- Claim C3 (counterexample): the coefficient `A` does not differ between
product form `'W'` and an unrecognized label — both branches of the
`A_coeff` selection carry the same constant 6.7e-18. -/
theorem c3_counterexample :
    ¬ (A_coeff "W" ≠ A_coeff "ZZZ" ∧ B_coeff "W" ≠ B_coeff "ZZZ") := by
  rintro ⟨hA, -⟩
  exact hA (by rw [A_coeff_eq, A_coeff_eq])

/-- Claim C3 (amended): for product form `'W'` versus any unrecognized
label the `B` coefficients differ (234 versus the fallback 128), but the
`A` coefficients are equal (both 6.7e-18). -/
theorem c3_weld_vs_other (s : String) (h : s ≠ "W") :
    A_coeff "W" = A_coeff s ∧ B_coeff "W" ≠ B_coeff s := by
  refine ⟨by rw [A_coeff_eq, A_coeff_eq], ?_⟩
  rw [B_coeff_W, B_coeff_ne s h]
  intro he
  simp only [NpF.fin.injEq] at he
  norm_num at he

/-- Claim C3 (witness): the amended statement at the unrecognized label
`"Q"`. -/
theorem c3_witness : A_coeff "W" = A_coeff "Q" ∧ B_coeff "W" ≠ B_coeff "Q" :=
  c3_weld_vs_other "Q" (by decide)

/-- Claim C4: for a sample whose copper content is zero (with nonnegative
nickel and positive fluence), the copper-precipitation term `term_B` is
exactly zero and the sample's output is the matrix-damage term alone
(divided by 1.8 for the Fahrenheit-to-Celsius delta conversion). -/
theorem c4_copper_zero (n q m fl : ℝ) (t : NpF) (s : String) (hn : 0 ≤ n)
    (hf : 0 < fl) :
    term_B s (NpF.fin 0) (NpF.fin n) (NpF.fin fl) = NpF.fin 0 ∧
      astm_sample (NpF.fin 0) (NpF.fin n) (NpF.fin q) (NpF.fin m) t (NpF.fin fl) s =
        term_A s t (NpF.fin fl) / NpF.fin 1.8 := by
  refine ⟨term_B_cu_zero s n fl hn hf, ?_⟩
  unfold astm_sample
  rw [term_B_cu_zero s n fl hn hf, npf_add_fin_zero]

/-- Claim C4 (witness): the statement at a concrete plate sample with
zero copper. -/
theorem c4_witness :
    term_B "P" (NpF.fin 0) (NpF.fin 0.5) (NpF.fin 1e19) = NpF.fin 0 ∧
      astm_sample (NpF.fin 0) (NpF.fin 0.5) (NpF.fin 0.01) (NpF.fin 1.4)
        (NpF.fin 290) (NpF.fin 1e19) "P" =
        term_A "P" (NpF.fin 290) (NpF.fin 1e19) / NpF.fin 1.8 :=
  c4_copper_zero 0.5 0.01 1.4 1e19 (NpF.fin 290) "P" (by norm_num) (by norm_num)

/-- Claim C5: on seven equal-length input sequences (any common length,
zero included) the output sequence of `astm_e900_15` has exactly that
length. -/
theorem c5_length (n : ℕ) :
    ∀ (cu ni ph mn t f : List NpF) (pf : List String),
      cu.length = n → ni.length = n → ph.length = n → mn.length = n →
      t.length = n → f.length = n → pf.length = n →
      (astm_e900_15 cu ni ph mn t f pf).length = n := by
  induction n with
  | zero =>
      intro cu ni ph mn t f pf hcu hni hph hmn ht hf hpf
      rw [List.length_eq_zero] at hcu hni hph hmn ht hf hpf
      subst hcu; subst hni; subst hph; subst hmn; subst ht; subst hf; subst hpf
      rfl
  | succ k ih =>
      intro cu ni ph mn t f pf hcu hni hph hmn ht hf hpf
      cases cu with
      | nil => simp at hcu
      | cons c cu =>
      cases ni with
      | nil => simp at hni
      | cons a ni =>
      cases ph with
      | nil => simp at hph
      | cons b ph =>
      cases mn with
      | nil => simp at hmn
      | cons d mn =>
      cases t with
      | nil => simp at ht
      | cons e t =>
      cases f with
      | nil => simp at hf
      | cons g f =>
      cases pf with
      | nil => simp at hpf
      | cons s pf =>
      simp only [List.length_cons] at hcu hni hph hmn ht hf hpf
      simp only [astm_e900_15, List.length_cons]
      rw [ih cu ni ph mn t f pf (by omega) (by omega) (by omega) (by omega) (by omega)
        (by omega) (by omega)]

/-- Claim C5 (witness): singleton inputs give a singleton output. -/
theorem c5_witness :
    (astm_e900_15 [NpF.fin 1] [NpF.fin 1] [NpF.fin 1] [NpF.fin 1] [NpF.fin 1]
      [NpF.fin 1] ["P"]).length = 1 :=
  c5_length 1 _ _ _ _ _ _ _ rfl rfl rfl rfl rfl rfl rfl

/-- Sum of squared differences between a sequence and its constant-offset
shift: each row contributes exactly `k ^ 2`. -/
theorem sum_sq_offset (k : ℝ) (obs : List ℝ) :
    (List.zipWith (fun a b => (a - b) ^ 2) obs (obs.map fun x => x + k)).sum =
      obs.length * k ^ 2 := by
  induction obs with
  | nil => simp
  | cons a tl ih =>
      simp only [List.map_cons, List.zipWith_cons_cons, List.sum_cons, ih,
        List.length_cons]
      push_cast
      ring

/-- Claim C6: for two sequences related by a per-row constant offset `k`
(`k = 0` covering identical sequences), the driver's RMSE computation
returns exactly `|k|`. -/
theorem c6_rmse_offset (obs : List ℝ) (k : ℝ) (h : obs ≠ []) :
    rmse obs (obs.map fun x => x + k) = |k| := by
  have hn : (obs.length : ℝ) ≠ 0 := by
    exact_mod_cast fun h0 => h (List.length_eq_zero.mp (by exact_mod_cast h0))
  unfold rmse mean_squared_error
  rw [sum_sq_offset k obs, mul_comm, mul_div_assoc, div_self hn, mul_one,
    Real.sqrt_sq_eq_abs]

/-- Claim C6 (witness): identical sequences (offset 0) give RMSE `|0|`. -/
theorem c6_witness : rmse [1, 2] ([1, 2].map fun x => x + 0) = |(0 : ℝ)| :=
  c6_rmse_offset [1, 2] 0 (List.cons_ne_nil 1 [2])

/-- Claim C7: for the specified failure kinds the driver never ends with
an uncaught exception: a missing input file makes `main` return the
missing-file outcome without computing; and whenever the file exists and
loading succeeds, `main` produces a normal outcome (`Except.ok`), with
any error of the formula/RMSE body caught and reported as `caughtError`
with its message. -/
theorem c7_failure_handling (fe : Bool) (load : Except String (List Row))
    (body : List Row → Except String ℝ) :
    (fe = false → main fe load body = .ok .missingFile) ∧
      (∀ df : List Row, fe = true → load = .ok df →
        ∃ o : MainOutcome, main fe load body = .ok o ∧
          ∀ e : String, body (dropnaMain df) = .error e → o = .caughtError e) := by
  constructor
  · intro h
    unfold main
    rw [h]
    rfl
  · intro df hfe hload
    unfold main
    rw [hfe, hload]
    refine ⟨tryBlock (body (dropnaMain df)), by simp, ?_⟩
    intro e he
    unfold tryBlock
    rw [he]

/-- Claim C7 (witness): with the input file missing, `main` returns the
missing-file outcome. -/
theorem c7_witness :
    main false (Except.ok []) (fun _ => Except.ok 0) =
      Except.ok MainOutcome.missingFile :=
  (c7_failure_handling false (Except.ok []) fun _ => Except.ok 0).1 rfl

/-- Claim C8 (counterexample): a concrete row whose phosphorus and
product-form cells are missing survives the driver's `dropna` filter
(whose subset lists only the five columns `DT41J_Celsius`,
`Fluence_n_cm2`, `Cu`, `Ni`, `Temperature_Celsius`), so it does reach the
formula and the RMSE computation. -/
theorem c8_counterexample :
    dropnaMain [rowMissingP] = [rowMissingP] ∧ rowMissingP.p = none ∧
      rowMissingP.product_form = none :=
  ⟨rfl, rfl, rfl⟩

/-- Claim C8 (amended): the driver's row filter keeps exactly the rows
whose `DT41J_Celsius`, `Fluence_n_cm2`, `Cu`, `Ni` and
`Temperature_Celsius` cells are present; missing phosphorus, product-form
or manganese cells are not filtered out. -/
theorem c8_dropna (df : List Row) (r : Row) :
    r ∈ dropnaMain df ↔
      r ∈ df ∧ (r.dt41j.isSome ∧ r.fluence_n_cm2.isSome ∧ r.cu.isSome ∧
        r.ni.isSome ∧ r.temperature_celsius.isSome) := by
  unfold dropnaMain
  simp [List.mem_filter, Bool.and_eq_true, and_assoc]

/-- Claim C8 (witness): the row with missing phosphorus passes the filter
via the amended characterization. -/
theorem c8_witness : rowMissingP ∈ dropnaMain [rowMissingP] :=
  (c8_dropna [rowMissingP] rowMissingP).mpr
    ⟨List.mem_singleton.mpr rfl, rfl, rfl, rfl, rfl, rfl⟩

/-- Claim C9: the evaluator is a pure deterministic mapping: evaluating it
twice on the same tuple of input sequences yields the same output
sequence (the embedding of the source is a function of its inputs alone;
the source reads no external state). -/
theorem c9_deterministic (cu ni ph mn t f : List NpF) (pf : List String) :
    astm_e900_15 cu ni ph mn t f pf = astm_e900_15 cu ni ph mn t f pf := rfl

/-- Claim C10: for a sample with copper at most 0.072 and positive
fluence, the prediction is independent of the product-form label: the
effective-copper factor `F` floors to zero (killing the only
`B_coeff`-dependent term) and `A_coeff` does not vary with product form. -/
theorem c10_product_form_independent (c fl : ℝ) (hc : c ≤ 0.072) (hf : 0 < fl)
    (ni ph mn t : NpF) (s₁ s₂ : String) :
    astm_sample (NpF.fin c) ni ph mn t (NpF.fin fl) s₁ =
      astm_sample (NpF.fin c) ni ph mn t (NpF.fin fl) s₂ := by
  unfold astm_sample
  rw [term_A_indep s₁ s₂, term_B_indep s₁ s₂ c hc]

/-- Claim C10 (witness): a concrete low-copper sample evaluated as weld
and as an unrecognized label gives the same prediction. -/
theorem c10_witness :
    astm_sample (NpF.fin 0.05) (NpF.fin 0.5) (NpF.fin 0.01) (NpF.fin 1.4)
        (NpF.fin 290) (NpF.fin 1e19) "W" =
      astm_sample (NpF.fin 0.05) (NpF.fin 0.5) (NpF.fin 0.01) (NpF.fin 1.4)
        (NpF.fin 290) (NpF.fin 1e19) "QQ" :=
  c10_product_form_independent 0.05 1e19 (by norm_num) (by norm_num) _ _ _ _ "W" "QQ"
